import Mathlib

/-!
Shallow embedding of the tray-shell supervisor in `src/gui/src-tauri/src/main.rs`.

The program spawns a background service (`aetherd`), stores the child handle in
a mutex-guarded `Option`, and reacts to tray events (left click, the menu items
whose ids are the strings for quit and hide), the single-instance activation
callback, and the window close-request event.  Handlers issue window commands
(`show`, `unminimize`, `set_focus`, `hide`) through `.unwrap()`, so a failing
lookup or command panics.  The embedding models the mutable state (child
handle, window visibility flags, exit status), the list of observable actions
each handler emits, and an oracle environment saying which framework calls
succeed, so that the `.unwrap()` panics are visible as a `panicked` outcome.
-/

namespace AetherGui

/-- The primary window's observable flags driven by the window commands the
code issues (`show`, `unminimize`, `set_focus`, `hide`). -/
structure Window where
  visible : Bool
  minimized : Bool
  focused : Bool
deriving DecidableEq, Repr

/-- Application state: the `CoreProcess(Mutex<Option<Child>>)` handle (a child
is identified by a numeric pid), the primary window flags, and the exit status
set by `std::process::exit`. -/
structure AppState where
  core : Option Nat
  window : Window
  exited : Option Nat
deriving DecidableEq, Repr

/-- Success/failure oracle for the fallible framework calls each handler makes:
`get_window("main")` returning a window, the four window commands, and
`Child::kill`.  The Rust code unwraps the former and discards the latter. -/
structure Env where
  getWindowOk : Bool
  showOk : Bool
  unminimizeOk : Bool
  setFocusOk : Bool
  hideOk : Bool
  killOk : Bool
deriving DecidableEq, Repr

/-- Environment in which every framework call succeeds. -/
def Env.allOk : Env :=
  { getWindowOk := true, showOk := true, unminimizeOk := true
    setFocusOk := true, hideOk := true, killOk := true }

/-- The events the three registered callbacks receive: the single-instance
plugin activation, `SystemTrayEvent::LeftClick`,
`SystemTrayEvent::MenuItemClick` with its id string, the window
`CloseRequested` event, and the catch-all branches. -/
inductive Event where
  | singleInstance
  | leftClick
  | menuItem (id : String)
  | closeRequested
  | otherTray
  | otherWindow
deriving DecidableEq, Repr

/-- Observable side effects a handler emits, in program order. -/
inductive Action where
  | windowShow
  | windowUnminimize
  | windowSetFocus
  | windowHide
  | preventClose
  | killSignal (h : Nat)
  | exitApp (code : Nat)
deriving DecidableEq, Repr

/-- Outcome of one handler invocation: the updated state together with the
emitted actions, or a panic from an `.unwrap()` naming the failed call. -/
inductive StepResult where
  | ok (s : AppState) (tr : List Action)
  | panicked (op : String)
deriving DecidableEq, Repr

/-- The quit branch's take-and-kill on the stored handle (lines 65-67):
`if let Some(mut child) = ...lock().unwrap().take() { let _ = child.kill(); }`.
The kill outcome `killOk` is bound and discarded, exactly as `let _ =` does. -/
def terminate (killOk : Bool) (core : Option Nat) : Option Nat × List Action :=
  match core with
  | some h =>
    let _killOutcome := killOk
    (none, [Action.killSignal h])
  | none => (none, [])

/-- One event dispatch, following the three callbacks in `main.rs` branch by
branch. -/
def step (env : Env) (s : AppState) : Event → StepResult
  | Event.singleInstance =>
    if env.getWindowOk then
      if env.showOk then
        if env.unminimizeOk then
          if env.setFocusOk then
            StepResult.ok
              { s with window := { visible := true, minimized := false, focused := true } }
              [Action.windowShow, Action.windowUnminimize, Action.windowSetFocus]
          else StepResult.panicked ("set_focus")
        else StepResult.panicked ("unminimize")
      else StepResult.panicked ("show")
    else StepResult.panicked ("get_window")
  | Event.leftClick =>
    if env.getWindowOk then
      if env.showOk then
        if env.setFocusOk then
          StepResult.ok
            { s with window := { s.window with visible := true, focused := true } }
            [Action.windowShow, Action.windowSetFocus]
        else StepResult.panicked ("set_focus")
      else StepResult.panicked ("show")
    else StepResult.panicked ("get_window")
  | Event.menuItem id =>
    if id = ("quit") then
      let t := terminate env.killOk s.core
      StepResult.ok { s with core := t.1, exited := some 0 } (t.2 ++ [Action.exitApp 0])
    else if id = ("hide") then
      if env.getWindowOk then
        if env.hideOk then
          StepResult.ok { s with window := { s.window with visible := false } }
            [Action.windowHide]
        else StepResult.panicked ("hide")
      else StepResult.panicked ("get_window")
    else StepResult.ok s []
  | Event.closeRequested =>
    if env.hideOk then
      StepResult.ok { s with window := { s.window with visible := false } }
        [Action.windowHide, Action.preventClose]
    else StepResult.panicked ("hide")
  | Event.otherTray => StepResult.ok s []
  | Event.otherWindow => StepResult.ok s []

/-- Sequential event-loop delivery: events are handled one at a time in
arrival order, stopping at the first panic; traces are concatenated. -/
def runEvents (env : Env) (s : AppState) : List Event → StepResult
  | [] => StepResult.ok s []
  | e :: es =>
    match step env s e with
    | StepResult.ok s1 tr1 =>
      match runEvents env s1 es with
      | StepResult.ok s2 tr2 => StepResult.ok s2 (tr1 ++ tr2)
      | StepResult.panicked op => StepResult.panicked op
    | StepResult.panicked op => StepResult.panicked op

/-- Iterating the quit branch's take-and-kill `n` times, collecting every
emitted action. -/
def terminateN (killOk : Bool) : Nat → Option Nat → Option Nat × List Action
  | 0, core => (core, [])
  | n + 1, core =>
    let t := terminate killOk core
    let r := terminateN killOk n t.1
    (r.1, t.2 ++ r.2)

/-- Resolution of the service binary (lines 34-37): probe the bundled resource
name without extension, and only if that is absent the `.exe` name, via
`resolve_resource(..).or_else(|| resolve_resource(..))`.  `rr` is the
path resolver. -/
def resolveCorePath (rr : String → Option String) : Option String :=
  match rr ("bin/aetherd") with
  | some p => some p
  | none => rr ("bin/aetherd.exe")

/-- A spawn request: the resolved binary path and the argument list built by
`cmd.arg("--api").arg("127.0.0.1:9880")`. -/
structure SpawnRequest where
  path : String
  args : List String
deriving DecidableEq, Repr

/-- The setup closure (lines 32-54): resolve the binary (or die with the
resolve diagnostic), spawn it with the fixed `--api` address (or die with the
spawn diagnostic), and store the child handle.  `sp` is the OS spawn call,
returning the child pid on success. -/
def setup (rr : String → Option String) (sp : SpawnRequest → Option Nat) :
    Except String (Nat × SpawnRequest) :=
  match resolveCorePath rr with
  | none => Except.error ("failed to resolve aetherd binary")
  | some p =>
    match sp { path := p, args := ["--api", "127.0.0.1:9880"] } with
    | none => Except.error ("failed to start aetherd")
    | some child => Except.ok (child, { path := p, args := ["--api", "127.0.0.1:9880"] })

/-- Whole-application run: startup aborts with the setup diagnostic before any
event is dispatched; otherwise the event loop runs from the state holding the
spawned child. `w0` is the window's initial flags. -/
def appMain (rr : String → Option String) (sp : SpawnRequest → Option Nat)
    (env : Env) (w0 : Window) (events : List Event) : Except String StepResult :=
  match setup rr sp with
  | Except.error e => Except.error e
  | Except.ok (child, _req) =>
    Except.ok (runEvents env { core := some child, window := w0, exited := none } events)

/-- The two tray actions of claim C8: show (tray left click) and the hide menu
item. -/
inductive TrayAct where
  | showAct
  | hideAct
deriving DecidableEq, Repr

/-- The event each tray action dispatches. -/
def TrayAct.toEvent : TrayAct → Event
  | TrayAct.showAct => Event.leftClick
  | TrayAct.hideAct => Event.menuItem ("hide")

/-- The window visibility an action commands. -/
def TrayAct.vis : TrayAct → Bool
  | TrayAct.showAct => true
  | TrayAct.hideAct => false

/-- The last action of the nonempty sequence `a :: l`. -/
def lastTray : TrayAct → List TrayAct → TrayAct
  | a, [] => a
  | _, b :: l => lastTray b l

/-- Sample resolver: only the `.exe` candidate is present. -/
def rrExeOnly : String → Option String :=
  fun n => if n = ("bin/aetherd.exe") then some ("/res/bin/aetherd.exe") else none

/-- Sample resolver: the extensionless candidate is present. -/
def rrPlain : String → Option String :=
  fun n => if n = ("bin/aetherd") then some ("/res/bin/aetherd") else none

/-- Sample spawn call that always fails. -/
def spFail : SpawnRequest → Option Nat := fun _ => none

/-- Sample spawn call that yields child pid 9. -/
def spChild9 : SpawnRequest → Option Nat := fun _ => some 9

/-- A sample visible window. -/
def wShown : Window := { visible := true, minimized := false, focused := true }

/-- A sample state holding child pid 4 with the window visible. -/
def sWithChild : AppState := { core := some 4, window := wShown, exited := none }

theorem step_show_eq (s : AppState) :
    step Env.allOk s Event.leftClick =
      StepResult.ok { s with window := { s.window with visible := true, focused := true } }
        [Action.windowShow, Action.windowSetFocus] := rfl

theorem step_hide_eq (s : AppState) :
    step Env.allOk s (Event.menuItem ("hide")) =
      StepResult.ok { s with window := { s.window with visible := false } }
        [Action.windowHide] := rfl

theorem step_no_quit (env : Env) (s : AppState) (e : Event) (s2 : AppState)
    (tr : List Action) (hne : e ≠ Event.menuItem ("quit"))
    (hs : step env s e = StepResult.ok s2 tr) :
    s2.core = s.core ∧ s2.exited = s.exited ∧ ∀ c, Action.exitApp c ∉ tr := by
  cases e with
  | singleInstance =>
      simp only [step] at hs
      repeat' split at hs
      all_goals
        first
          | exact StepResult.noConfusion hs
          | (cases hs; exact ⟨rfl, rfl, fun c => by simp⟩)
  | leftClick =>
      simp only [step] at hs
      repeat' split at hs
      all_goals
        first
          | exact StepResult.noConfusion hs
          | (cases hs; exact ⟨rfl, rfl, fun c => by simp⟩)
  | menuItem id =>
      have hid : id ≠ ("quit") := fun hq => hne (by rw [hq])
      simp only [step, if_neg hid] at hs
      repeat' split at hs
      all_goals
        first
          | exact StepResult.noConfusion hs
          | (cases hs; exact ⟨rfl, rfl, fun c => by simp⟩)
  | closeRequested =>
      simp only [step] at hs
      repeat' split at hs
      all_goals
        first
          | exact StepResult.noConfusion hs
          | (cases hs; exact ⟨rfl, rfl, fun c => by simp⟩)
  | otherTray =>
      simp only [step] at hs
      cases hs
      exact ⟨rfl, rfl, fun c => by simp⟩
  | otherWindow =>
      simp only [step] at hs
      cases hs
      exact ⟨rfl, rfl, fun c => by simp⟩

theorem runEvents_cons (env : Env) (s : AppState) (e : Event) (es : List Event)
    (s2 : AppState) (tr : List Action)
    (hr : runEvents env s (e :: es) = StepResult.ok s2 tr) :
    ∃ s1 tr1 tr2, step env s e = StepResult.ok s1 tr1 ∧
      runEvents env s1 es = StepResult.ok s2 tr2 ∧ tr = tr1 ++ tr2 := by
  simp only [runEvents] at hr
  split at hr
  · split at hr
    · cases hr
      rename_i s1 tr1 hstep s2b tr2 hrun
      exact ⟨s1, tr1, tr2, hstep, hrun, rfl⟩
    · exact StepResult.noConfusion hr
  · exact StepResult.noConfusion hr

theorem runEvents_core_preserved (env : Env) :
    ∀ (l : List Event) (s s2 : AppState) (tr : List Action),
      (∀ e ∈ l, e ≠ Event.menuItem ("quit")) →
      runEvents env s l = StepResult.ok s2 tr → s2.core = s.core := by
  intro l
  induction l with
  | nil =>
      intro s s2 tr _ hr
      simp only [runEvents] at hr
      cases hr
      rfl
  | cons e es ih =>
      intro s s2 tr hall hr
      obtain ⟨s1, tr1, tr2, hstep, hrun, -⟩ := runEvents_cons env s e es s2 tr hr
      have h1 := (step_no_quit env s e s1 tr1 (hall e (by simp)) hstep).1
      have h2 := ih s1 s2 tr2 (fun x hx => hall x (by simp [hx])) hrun
      rw [h2, h1]

theorem terminateN_absent (b : Bool) : ∀ n : Nat, terminateN b n none = (none, []) := by
  intro n
  induction n with
  | zero => rfl
  | succ m ih => simp [terminateN, terminate, ih]

/-- Claim C1: iterating the quit branch's take-and-kill any number n ≥ 1 of
times starting from a stored handle sends exactly one kill signal and leaves
the handle absent: the first call takes the handle (leaving none) and kills
it, and a call on an absent handle does nothing. -/
theorem terminate_exactly_one_kill (b : Bool) (h n : Nat) (hn : 1 ≤ n) :
    terminateN b n (some h) = (none, [Action.killSignal h]) ∧
    terminate b (some h) = (none, [Action.killSignal h]) ∧
    terminate b none = (none, ([] : List Action)) := by
  refine ⟨?_, rfl, rfl⟩
  cases n with
  | zero => exact absurd hn (by decide)
  | succ m => simp [terminateN, terminate, terminateN_absent]

theorem terminate_exactly_one_kill_witness :
    terminateN true 3 (some 7) = (none, [Action.killSignal 7]) :=
  (terminate_exactly_one_kill true 7 3 (by decide)).1

/-- Claim C4: a forwarded activation from a second launch shows the window,
unminimizes it and focuses it, from any prior state; applied to an already
visible, unminimized, focused window it changes nothing (idempotent). -/
theorem activation_shows_unminimizes_focuses (s : AppState) :
    step Env.allOk s Event.singleInstance =
      StepResult.ok
        { s with window := { visible := true, minimized := false, focused := true } }
        [Action.windowShow, Action.windowUnminimize, Action.windowSetFocus] ∧
    step Env.allOk
        { s with window := { visible := true, minimized := false, focused := true } }
        Event.singleInstance =
      StepResult.ok
        { s with window := { visible := true, minimized := false, focused := true } }
        [Action.windowShow, Action.windowUnminimize, Action.windowSetFocus] :=
  ⟨rfl, rfl⟩

/-- Claim C5: a tray left click, in every window state, shows and focuses the
window; the emitted actions are exactly show then focus (no hide), and the
resulting window is visible. -/
theorem left_click_always_shows (s : AppState) :
    step Env.allOk s Event.leftClick =
      StepResult.ok
        { s with window := { s.window with visible := true, focused := true } }
        [Action.windowShow, Action.windowSetFocus] ∧
    ({ s with window := { s.window with visible := true, focused := true } } :
        AppState).window.visible = true :=
  ⟨rfl, rfl⟩

/-- Claim C9: the quit branch discards the outcome of the kill call: whatever
that outcome is, the handler behaves identically and still exits with code 0
(state records exit status 0 and the trace ends with the exit action). -/
theorem quit_discards_kill_failure (s : AppState) (b : Bool) :
    step { Env.allOk with killOk := b } s (Event.menuItem ("quit")) =
      step Env.allOk s (Event.menuItem ("quit")) ∧
    step { Env.allOk with killOk := b } s (Event.menuItem ("quit")) =
      StepResult.ok { s with core := none, exited := some 0 }
        ((terminate b s.core).2 ++ [Action.exitApp 0]) := by
  obtain ⟨c, w, x⟩ := s
  cases c <;> exact ⟨rfl, rfl⟩

/-- Claim C10: in every handler, a failed window lookup or a failed window
command (show, unminimize, set_focus, hide) panics the handler, at the Rust
unwrap of the corresponding call. -/
theorem window_command_failures_panic (s : AppState) :
    step { Env.allOk with getWindowOk := false } s Event.singleInstance =
      StepResult.panicked ("get_window") ∧
    step { Env.allOk with showOk := false } s Event.singleInstance =
      StepResult.panicked ("show") ∧
    step { Env.allOk with unminimizeOk := false } s Event.singleInstance =
      StepResult.panicked ("unminimize") ∧
    step { Env.allOk with setFocusOk := false } s Event.singleInstance =
      StepResult.panicked ("set_focus") ∧
    step { Env.allOk with getWindowOk := false } s Event.leftClick =
      StepResult.panicked ("get_window") ∧
    step { Env.allOk with showOk := false } s Event.leftClick =
      StepResult.panicked ("show") ∧
    step { Env.allOk with setFocusOk := false } s Event.leftClick =
      StepResult.panicked ("set_focus") ∧
    step { Env.allOk with getWindowOk := false } s (Event.menuItem ("hide")) =
      StepResult.panicked ("get_window") ∧
    step { Env.allOk with hideOk := false } s (Event.menuItem ("hide")) =
      StepResult.panicked ("hide") ∧
    step { Env.allOk with hideOk := false } s Event.closeRequested =
      StepResult.panicked ("hide") :=
  ⟨rfl, rfl, rfl, rfl, rfl, rfl, rfl, rfl, rfl, rfl⟩

/-- Claim C2: a close request on the window is always intercepted: the handler
hides the window and calls the prevent-close api, and it never touches the
stored handle; moreover any sequence of close requests and tray show clicks
leaves the stored handle exactly as it was. -/
theorem close_requested_hides_core_unchanged (env : Env) (s : AppState)
    (hh : env.hideOk = true) :
    step env s Event.closeRequested =
      StepResult.ok { s with window := { s.window with visible := false } }
        [Action.windowHide, Action.preventClose] ∧
    (∀ l s2 tr, (∀ e ∈ l, e = Event.closeRequested ∨ e = Event.leftClick) →
      runEvents env s l = StepResult.ok s2 tr → s2.core = s.core) := by
  constructor
  · simp [step, hh]
  · intro l s2 tr hall hr
    refine runEvents_core_preserved env l s s2 tr ?_ hr
    intro e he
    rcases hall e he with h | h <;> (rw [h]; decide)

theorem close_requested_hides_core_unchanged_witness :
    step Env.allOk sWithChild Event.closeRequested =
      StepResult.ok
        { sWithChild with window := { sWithChild.window with visible := false } }
        [Action.windowHide, Action.preventClose] :=
  (close_requested_hides_core_unchanged Env.allOk sWithChild rfl).1

/-- Claim C3: the quit menu item runs the take-and-kill to completion and then
exits with code 0, the kill signal preceding the exit in the trace; every
other event leaves the exit status unchanged and emits no exit action, so
quit is the only exiting path. -/
theorem quit_kills_then_exits (env : Env) (s : AppState) :
    step env s (Event.menuItem ("quit")) =
      StepResult.ok { s with core := none, exited := some 0 }
        ((terminate env.killOk s.core).2 ++ [Action.exitApp 0]) ∧
    (∀ h, s.core = some h →
      (terminate env.killOk s.core).2 ++ [Action.exitApp 0] =
        [Action.killSignal h, Action.exitApp 0]) ∧
    (∀ e s2 tr, e ≠ Event.menuItem ("quit") →
      step env s e = StepResult.ok s2 tr →
      s2.exited = s.exited ∧ ∀ c, Action.exitApp c ∉ tr) := by
  refine ⟨?_, ?_, ?_⟩
  · obtain ⟨c, w, x⟩ := s
    cases c <;> rfl
  · intro h hc
    rw [hc]
    rfl
  · intro e s2 tr hne hs
    exact ⟨(step_no_quit env s e s2 tr hne hs).2.1, (step_no_quit env s e s2 tr hne hs).2.2⟩

theorem quit_kills_then_exits_witness :
    ((terminate Env.allOk.killOk sWithChild.core).2 ++ [Action.exitApp 0] =
      [Action.killSignal 4, Action.exitApp 0]) ∧
    (({ sWithChild with window := { sWithChild.window with visible := true, focused := true } } :
        AppState).exited = sWithChild.exited ∧
      ∀ c, Action.exitApp c ∉ [Action.windowShow, Action.windowSetFocus]) :=
  ⟨(quit_kills_then_exits Env.allOk sWithChild).2.1 4 rfl,
   (quit_kills_then_exits Env.allOk sWithChild).2.2 Event.leftClick
     { sWithChild with window := { sWithChild.window with visible := true, focused := true } }
     [Action.windowShow, Action.windowSetFocus] (by decide) rfl⟩

/-- Claim C6: the binary is resolved by probing the extensionless resource name
first and the `.exe` name only when the first is absent, in that order; when
neither resolves, or the spawn fails, the whole run aborts with the
corresponding diagnostic before any event is dispatched. -/
theorem resolve_order_and_fatal_startup
    (rr : String → Option String) (sp : SpawnRequest → Option Nat)
    (env : Env) (w0 : Window) (events : List Event) :
    (∀ p, rr ("bin/aetherd") = some p → resolveCorePath rr = some p) ∧
    (rr ("bin/aetherd") = none → resolveCorePath rr = rr ("bin/aetherd.exe")) ∧
    (resolveCorePath rr = none →
      appMain rr sp env w0 events = Except.error ("failed to resolve aetherd binary")) ∧
    (∀ p, resolveCorePath rr = some p →
      sp { path := p, args := ["--api", "127.0.0.1:9880"] } = none →
      appMain rr sp env w0 events = Except.error ("failed to start aetherd")) := by
  refine ⟨?_, ?_, ?_, ?_⟩
  · intro p hp
    simp [resolveCorePath, hp]
  · intro h0
    simp [resolveCorePath, h0]
  · intro hn
    simp [appMain, setup, hn]
  · intro p hp hsp
    simp [appMain, setup, hp, hsp]

theorem resolve_order_and_fatal_startup_witness :
    appMain rrExeOnly spFail Env.allOk wShown [] =
      Except.error ("failed to start aetherd") :=
  (resolve_order_and_fatal_startup rrExeOnly spFail Env.allOk wShown []).2.2.2
    ("/res/bin/aetherd.exe") rfl rfl

/-- Claim C7: whenever setup succeeds, the spawned process received exactly the
two-element argument list of the fixed api flag and address. -/
theorem spawn_args_fixed (rr : String → Option String) (sp : SpawnRequest → Option Nat)
    (child : Nat) (req : SpawnRequest)
    (hs : setup rr sp = Except.ok (child, req)) :
    req.args = ["--api", "127.0.0.1:9880"] := by
  simp only [setup] at hs
  split at hs
  · exact Except.noConfusion hs
  · split at hs
    · exact Except.noConfusion hs
    · cases hs
      rfl

theorem spawn_args_fixed_witness :
    ({ path := "/res/bin/aetherd", args := ["--api", "127.0.0.1:9880"] } :
        SpawnRequest).args = ["--api", "127.0.0.1:9880"] :=
  spawn_args_fixed rrPlain spChild9 9
    { path := ("/res/bin/aetherd"), args := ["--api", "127.0.0.1:9880"] } rfl

/-- Claim C8: running any nonempty sequence of tray hide and show actions from
any starting state ends with the window visibility commanded by the last
action of the sequence. -/
theorem tray_sequence_last_wins (a : TrayAct) (l2 : List TrayAct) (s s2 : AppState)
    (tr : List Action)
    (hr : runEvents Env.allOk s (List.map TrayAct.toEvent (a :: l2)) = StepResult.ok s2 tr) :
    s2.window.visible = TrayAct.vis (lastTray a l2) := by
  induction l2 generalizing a s tr with
  | nil =>
      simp only [List.map_cons, List.map_nil] at hr
      obtain ⟨s1, tr1, tr2, hstep, hrun, -⟩ :=
        runEvents_cons Env.allOk s (TrayAct.toEvent a) [] s2 tr hr
      simp only [runEvents] at hrun
      cases hrun
      cases a with
      | showAct =>
          simp only [TrayAct.toEvent] at hstep
          rw [step_show_eq] at hstep
          cases hstep
          rfl
      | hideAct =>
          simp only [TrayAct.toEvent] at hstep
          rw [step_hide_eq] at hstep
          cases hstep
          rfl
  | cons b l3 ih =>
      simp only [List.map_cons] at hr
      obtain ⟨s1, tr1, tr2, hstep, hrun, -⟩ :=
        runEvents_cons Env.allOk s (TrayAct.toEvent a)
          (TrayAct.toEvent b :: List.map TrayAct.toEvent l3) s2 tr hr
      have hv : s2.window.visible = TrayAct.vis (lastTray b l3) := by
        refine ih b s1 tr2 ?_
        simp only [List.map_cons]
        exact hrun
      cases a <;> exact hv

theorem tray_sequence_last_wins_witness :
    ({ core := some 4,
       window := { visible := false, minimized := false, focused := true },
       exited := none } : AppState).window.visible =
      TrayAct.vis (lastTray TrayAct.showAct [TrayAct.hideAct]) :=
  tray_sequence_last_wins TrayAct.showAct [TrayAct.hideAct] sWithChild
    { core := some 4,
      window := { visible := false, minimized := false, focused := true },
      exited := none }
    [Action.windowShow, Action.windowSetFocus, Action.windowHide] rfl

end AetherGui
